import Mathlib

/-!
# Verification of the `knowhow` helper scripts

Three scripts are embedded:

* `check_links.js`  : the link validator (Node.js, `fs`, `jsdom`);
* `nav-control.js`  : the `showNav` query parameter handling of a page;
* `components.js`   : the componentizer that rebuilds the page body.

The scripts talk to a platform (file system, HTML parser, browser DOM).  The
platform is a parameter of the embedding; the scripts are translated
statement by statement on top of it.
-/

set_option autoImplicit false
set_option maxRecDepth 100000

namespace Knowhow

/-! ## JavaScript strings -/

/-- Code points removed by `String.prototype.trim`: the ECMAScript `WhiteSpace`
production (TAB, VT, FF, ZWNBSP and the Unicode category Zs) together with the
`LineTerminator` production (LF, CR, LS, PS). -/
def isJsWhiteSpace (c : Char) : Bool :=
  let n := c.toNat
  n == 0x09 || n == 0x0A || n == 0x0B || n == 0x0C || n == 0x0D || n == 0x20 ||
  n == 0xA0 || n == 0x1680 || (0x2000 ≤ n && n ≤ 0x200A) || n == 0x2028 ||
  n == 0x2029 || n == 0x202F || n == 0x205F || n == 0x3000 || n == 0xFEFF

/-- The characters of `s.trim()`: drop white space at the front, then at the back. -/
def trimChars (cs : List Char) : List Char :=
  ((cs.dropWhile isJsWhiteSpace).reverse.dropWhile isJsWhiteSpace).reverse

/-- `String.prototype.trim`. -/
def jsTrim (s : String) : String :=
  String.mk (trimChars s.data)

/-- Does `needle` start at the head of `hay`? -/
def startsWithChars : List Char → List Char → Bool
  | _, [] => true
  | [], _ :: _ => false
  | h :: hay, n :: needle => h == n && startsWithChars hay needle

/-- Does `needle` occur somewhere in `hay`? -/
def includesChars : List Char → List Char → Bool
  | [], needle => startsWithChars [] needle
  | h :: hay, needle => startsWithChars (h :: hay) needle || includesChars hay needle

/-- `String.prototype.includes` with the default position 0. -/
def jsIncludes (s needle : String) : Bool :=
  includesChars s.data needle.data

/-! ## check_links.js -/

/-- An element of the node list `querySelectorAll('.pagination a')`, reduced to
what the scripts read from it: `getAttribute('href')` (`none` is JavaScript
`null`, the attribute is absent) and `textContent`. -/
structure Anchor where
  href : Option String
  textContent : String

/-- The platform of the link validator.  A thrown error is its `message`. -/
structure Platform where
  /-- `fs.readFileSync(file, 'utf8')`. -/
  readFileSync : String → Except String String
  /-- `new JSDOM(content)` followed by
  `dom.window.document.querySelectorAll('.pagination a')`, in document order. -/
  paginationLinks : String → Except String (List Anchor)
  /-- The existence test of the file system on a path string, relative paths
  being resolved against the working directory. -/
  fileExists : String → Bool

/-- `fs.existsSync(path)`: it never throws, and answers `false` for an argument
that is not a path, such as `null`. -/
def existsSync (env : Platform) (path : Option String) : Bool :=
  match path with
  | none => false
  | some p => env.fileExists p

/-- One call of `console.log` or `console.error` of check_links.js. -/
inductive Event where
  /-- Line 15. -/
  | header (file : String)
  /-- Line 22. -/
  | count (n : Nat)
  /-- Line 28. -/
  | link (href : Option String) (text : String)
  /-- Line 32. -/
  | targetExists
  /-- Line 34. -/
  | targetMissing
  /-- Line 39, on `console.error`. -/
  | failure (message : String)

/-- A line of console text and the stream it goes to. -/
inductive ConsoleLine where
  | log (text : String)
  | error (text : String)

/-- The text of each console call; a `null` href is interpolated as `null`. -/
def Event.render : Event → ConsoleLine
  | .header file => .log ("\n检查文件: " ++ file)
  | .count n => .log ("发现 " ++ toString n ++ " 个分页链接:")
  | .link href text => .log ("  - 链接: " ++ href.getD "null" ++ ", 文本: \"" ++ text ++ "\"")
  | .targetExists => .log "    ✓ 目标文件存在"
  | .targetMissing => .log "    ✗ 错误: 目标文件不存在!"
  | .failure message => .error ("  无法解析文件: " ++ message)

/-- The callback of `links.forEach` (lines 24-36); `console` is what has been
printed so far.  None of its statements can throw: `getAttribute` answers
`null` or a string, `textContent` of an element is a string, and `existsSync`
catches its own errors. -/
def checkLink (env : Platform) (console : List Event) (link : Anchor) : List Event :=
  let href := link.href
  let text := jsTrim link.textContent
  let console := console ++ [Event.link href text]
  if existsSync env href then
    console ++ [Event.targetExists]
  else
    console ++ [Event.targetMissing]

/-- The callback of `files.forEach` (lines 14-41): the `try` block stops at the
first statement that throws and the `catch` block prints the message. -/
def checkFile (env : Platform) (console : List Event) (file : String) : List Event :=
  let console := console ++ [Event.header file]
  match env.readFileSync file with
  | .error message => console ++ [Event.failure message]
  | .ok content =>
    match env.paginationLinks content with
    | .error message => console ++ [Event.failure message]
    | .ok links =>
      let console := console ++ [Event.count links.length]
      links.foldl (checkLink env) console

/-- The configured documents (lines 6-11). -/
def files : List String :=
  ["纳瓦尔宝典-笔记.html", "纳瓦尔宝典-笔记2.html", "纳瓦尔宝典-笔记3.html", "纳瓦尔宝典-笔记4.html"]

/-- The script on a list of documents: `files.forEach(...)`. -/
def checkFiles (env : Platform) (documents : List String) : List Event :=
  documents.foldl (checkFile env) []

/-- The script as it runs. -/
def checkLinks (env : Platform) : List Event :=
  checkFiles env files

/-! ### Reading a report -/

/-- A link record of the report. -/
structure LinkRecord where
  target : Option String
  label : String
  present : Bool
deriving DecidableEq, Repr

/-- The per-document headers of a report, in order. -/
def headers : List Event → List String
  | [] => []
  | .header file :: rest => file :: headers rest
  | _ :: rest => headers rest

/-- The link counts of a report, in order. -/
def counts : List Event → List Nat
  | [] => []
  | .count n :: rest => n :: counts rest
  | _ :: rest => counts rest

/-- The error messages of a report, in order. -/
def failures : List Event → List String
  | [] => []
  | .failure message :: rest => message :: failures rest
  | _ :: rest => failures rest

/-- The link records of a report: each link line with the verdict line that
follows it. -/
def records : List Event → List LinkRecord
  | [] => []
  | .link href text :: .targetExists :: rest => ⟨href, text, true⟩ :: records rest
  | .link href text :: .targetMissing :: rest => ⟨href, text, false⟩ :: records rest
  | _ :: rest => records rest

/-- The link lines of a report, in order: target and label. -/
def linkLines : List Event → List (Option String × String)
  | [] => []
  | .link href text :: rest => (href, text) :: linkLines rest
  | _ :: rest => linkLines rest

/-- The verdict lines of a report, `true` for "exists". -/
def verdicts : List Event → List Bool
  | [] => []
  | .targetExists :: rest => true :: verdicts rest
  | .targetMissing :: rest => false :: verdicts rest
  | _ :: rest => verdicts rest

/-! ### The report as a function of the input -/

/-- The two lines printed for one link. -/
def linkReport (env : Platform) (link : Anchor) : List Event :=
  [Event.link link.href (jsTrim link.textContent),
   if existsSync env link.href then Event.targetExists else Event.targetMissing]

/-- The lines printed for a node list. -/
def linksReport (env : Platform) : List Anchor → List Event
  | [] => []
  | link :: rest => linkReport env link ++ linksReport env rest

/-- The lines printed for one document. -/
def fileReport (env : Platform) (file : String) : List Event :=
  Event.header file ::
    match env.readFileSync file with
    | .error message => [Event.failure message]
    | .ok content =>
      match env.paginationLinks content with
      | .error message => [Event.failure message]
      | .ok links => Event.count links.length :: linksReport env links

/-- The lines printed for a list of documents. -/
def filesReport (env : Platform) : List String → List Event
  | [] => []
  | file :: rest => fileReport env file ++ filesReport env rest

/-- The link record the validator reports for an anchor. -/
def recordOf (env : Platform) (link : Anchor) : LinkRecord :=
  ⟨link.href, jsTrim link.textContent, existsSync env link.href⟩

/-- The node list of a document, when the document is read and parsed. -/
def selectedLinks (env : Platform) (file : String) : Option (List Anchor) :=
  match env.readFileSync file with
  | .error _ => none
  | .ok content =>
    match env.paginationLinks content with
    | .error _ => none
    | .ok links => some links

/-- The error a document fails with: that of the read, else that of the parse. -/
def documentError (env : Platform) (file : String) : Option String :=
  match env.readFileSync file with
  | .error message => some message
  | .ok content =>
    match env.paginationLinks content with
    | .error message => some message
    | .ok _ => none

/-! ## nav-control.js -/

/-- The part of the browser that `getQueryParam` reads. -/
structure Location where
  /-- `window.location.search`. -/
  search : String
  /-- `new URLSearchParams(url).get(name)`; `none` is `null`, the parameter is
  absent. -/
  searchParamsGet : String → String → Option String

/-- `getQueryParam(name)` (lines 4-8). -/
def getQueryParam (w : Location) (name : String) : Option String :=
  let url := w.search
  w.searchParamsGet url name

/-- The value computed on line 24. -/
def showNavValue (w : Location) : String :=
  if getQueryParam w "showNav" = some "false" then "false" else "true"

/-- The callback of `pageLinks.forEach` (lines 30-45): the link after the call,
or the `TypeError` thrown by `href.includes` when `getAttribute('href')` is
`null`. -/
def updateLink (value : String) (link : Anchor) : Except String Anchor :=
  match link.href with
  | none => .error "TypeError: Cannot read properties of null"
  | some href =>
    if jsIncludes href "?" then
      if jsIncludes href "showNav=" then
        .ok link
      else
        .ok { link with href := some (href ++ "&showNav=" ++ value) }
    else
      .ok { link with href := some (href ++ "?showNav=" ++ value) }

/-- `pageLinks.forEach(callback)`: the callback runs on the links in order; when
it throws, the loop ends there and the error leaves the function, the links
from that one on staying as they are.  The result is the node list afterwards
and the error thrown, if any. -/
def forEachLink (value : String) : List Anchor → List Anchor × Option String
  | [] => ([], none)
  | link :: rest =>
    match updateLink value link with
    | .error e => (link :: rest, some e)
    | .ok updated => (updated :: (forEachLink value rest).1, (forEachLink value rest).2)

/-- `updatePageLinks()` (lines 22-46) on the node list of `.pagination a`. -/
def updatePageLinks (w : Location) (pageLinks : List Anchor) : List Anchor × Option String :=
  forEachLink (showNavValue w) pageLinks

/-! ### Query parameters of a link target -/

/-- Cut a list of characters at each separator. -/
def splitChars (sep : Char) : List Char → List (List Char)
  | [] => [[]]
  | c :: cs =>
    if c = sep then [] :: splitChars sep cs
    else
      match splitChars sep cs with
      | [] => [[c]]
      | piece :: pieces => (c :: piece) :: pieces

/-- A C0 control character or a space: the URL parser strips these from the two
ends of its input. -/
def isC0OrSpace (c : Char) : Bool :=
  c.toNat ≤ 0x20

/-- An ASCII tab or newline: the URL parser removes these from its input. -/
def isTabOrNewline (c : Char) : Bool :=
  c.toNat == 0x09 || c.toNat == 0x0A || c.toNat == 0x0D

/-- The input of the URL parser: the reference without C0 controls and spaces
at its ends and without tabs and newlines. -/
def urlInput (href : String) : List Char :=
  (((href.data.dropWhile isC0OrSpace).reverse.dropWhile isC0OrSpace).reverse).filter
    (fun c => !isTabOrNewline c)

/-- The query of a URL reference: the fragment (from the first `#` on) is cut
off, and the query is what follows the first `?` of the remainder. -/
def queryOf (href : String) : List Char :=
  (((urlInput href).takeWhile (fun c => c != '#')).dropWhile (fun c => c != '?')).drop 1

/-- The value of a hexadecimal digit. -/
def hexValue (c : Char) : Option Nat :=
  let n := c.toNat
  if 0x30 ≤ n ∧ n ≤ 0x39 then some (n - 0x30)
  else if 0x41 ≤ n ∧ n ≤ 0x46 then some (n - 0x41 + 10)
  else if 0x61 ≤ n ∧ n ≤ 0x66 then some (n - 0x61 + 10)
  else none

/-- The UTF-8 bytes of a character. -/
def utf8Bytes (c : Char) : List Nat :=
  let n := c.toNat
  if n < 0x80 then [n]
  else if n < 0x800 then [0xC0 + n / 0x40, 0x80 + n % 0x40]
  else if n < 0x10000 then [0xE0 + n / 0x1000, 0x80 + n / 0x40 % 0x40, 0x80 + n % 0x40]
  else [0xF0 + n / 0x40000, 0x80 + n / 0x1000 % 0x40, 0x80 + n / 0x40 % 0x40, 0x80 + n % 0x40]

/-- The UTF-8 bytes of a list of characters. -/
def utf8Encode : List Char → List Nat
  | [] => []
  | c :: cs => utf8Bytes c ++ utf8Encode cs

/-- The byte a `%` stands for, given what follows it: two hexadecimal digits
denote a byte; otherwise the `%` stands for itself. -/
def percentByte : List Char → Option Nat
  | high :: low :: _ =>
    match hexValue high, hexValue low with
    | some h, some l => some (16 * h + l)
    | _, _ => none
  | _ => none

/-- The decoding of `formDecode`, first passing over `skip` characters. -/
def formDecodeFrom : List Char → Nat → List Nat
  | [], _ => []
  | _ :: rest, skip + 1 => formDecodeFrom rest skip
  | c :: rest, 0 =>
    if c = '+' then 0x20 :: formDecodeFrom rest 0
    else if c = '%' then
      match percentByte rest with
      | some byte => byte :: formDecodeFrom rest 2
      | none => 0x25 :: formDecodeFrom rest 0
    else utf8Bytes c ++ formDecodeFrom rest 0

/-- The bytes of a name or value of a query as `URLSearchParams` decodes it: `+`
is a space, `%` with two hexadecimal digits is the byte they denote, and every
other character stands for its UTF-8 bytes. -/
def formDecode (cs : List Char) : List Nat :=
  formDecodeFrom cs 0

/-- The names of the parameters of the query of a URL reference, as bytes: the
query is cut at each `&`, empty pieces are skipped, a name ends before the
first `=` and is decoded. -/
def queryParamNames (href : String) : List (List Nat) :=
  ((splitChars '&' (queryOf href)).filter (fun piece => !piece.isEmpty)).map
    (fun piece => formDecode (piece.takeWhile (fun c => c != '=')))

/-- The words "the href carries a query parameter named `name`", read on the
URL syntax: one of the parameters of the query of the target has that name. -/
def hasQueryParam (href name : String) : Bool :=
  (queryParamNames href).contains (utf8Encode name.data)

/-- A page location without query string. -/
def plainLocation : Location where
  search := ""
  searchParamsGet := fun _ _ => none

/-! ### The rewrite of one target -/

/-- The href a link with the attribute value `href` has after the callback. -/
def rewriteHref (value href : String) : String :=
  if jsIncludes href "?" then
    if jsIncludes href "showNav=" then href else href ++ "&showNav=" ++ value
  else href ++ "?showNav=" ++ value

/-- A link after the callback, when the callback does not throw. -/
def rewriteLink (value : String) (link : Anchor) : Anchor :=
  { link with href := link.href.map (rewriteHref value) }

/-! ## components.js -/

/-- A DOM node. -/
inductive Node where
  | text (data : String)
  | comment (data : String)
  | element (tag : String) (attrs : List (String × String)) (children : List Node)

/-- The browser under the componentizer: the algorithms of the HTML standard
behind `innerHTML` and `element.style`. -/
structure Browser where
  /-- The fragment parsing algorithm: the nodes a markup string gives as the
  content of an element with the given tag (the context element). -/
  parseFragment : String → String → List Node
  /-- The fragment serialisation algorithm on the children of an element with
  the given tag. -/
  serializeFragment : String → List Node → String
  /-- The text of the `style` attribute after the given properties were assigned
  on `element.style`, in that order. -/
  styleText : List (String × String) → String

mutual
/-- The tag and the children of the first element with the given id among a
node and its descendants, in tree order. -/
def Node.findById (id : String) : Node → Option (String × List Node)
  | .text _ => none
  | .comment _ => none
  | .element tag attrs children =>
    if attrs.lookup "id" = some id then some (tag, children) else findInForest id children
/-- The tag and the children of the first element with the given id in a list
of sibling nodes and their descendants, in tree order. -/
def findInForest (id : String) : List Node → Option (String × List Node)
  | [] => none
  | node :: rest =>
    match node.findById id with
    | some found => some found
    | none => findInForest id rest
end

mutual
/-- Replace the children of the first element with the given id among a node
and its descendants by `parse tag`, where `tag` is the tag of that element;
`none` when there is no such element. -/
def Node.setInnerById (id : String) (parse : String → List Node) : Node → Option Node
  | .text _ => none
  | .comment _ => none
  | .element tag attrs children =>
    if attrs.lookup "id" = some id then some (.element tag attrs (parse tag))
    else
      match setInnerInForest id parse children with
      | some updated => some (.element tag attrs updated)
      | none => none
/-- Replace the children of the first element with the given id in a list of
sibling nodes and their descendants; `none` when there is no such element. -/
def setInnerInForest (id : String) (parse : String → List Node) :
    List Node → Option (List Node)
  | [] => none
  | node :: rest =>
    match node.setInnerById id parse with
    | some updated => some (updated :: rest)
    | none =>
      match setInnerInForest id parse rest with
      | some updated => some (node :: updated)
      | none => none
end

/-- A child of the body element: the node, and whether it is the very element
the script holds in `loadingEl` (markup does not keep that identity). -/
structure BodyChild where
  isLoadingEl : Bool
  node : Node

/-- A document: the children of `head`, the id of the `body` element and the
children of `body`, which is the tree order `getElementById` searches in.  The
`html` and `head` elements themselves are taken to carry neither of the two
ids the script looks up. -/
structure Document where
  head : List Node
  bodyId : Option String
  body : List BodyChild

/-- A page as the parser delivers it at `DOMContentLoaded`. -/
structure Page where
  head : List Node
  bodyId : Option String
  body : List Node

/-- The child nodes of the body element. -/
def Document.bodyNodes (doc : Document) : List Node :=
  doc.body.map (fun child => child.node)

/-- `document.body.innerHTML`, read: the children of body, serialised. -/
def Document.bodyInnerHTML (b : Browser) (doc : Document) : String :=
  b.serializeFragment "body" doc.bodyNodes

/-- `document.body.innerHTML = markup`: the markup is parsed as the content of
body, and the former children leave the document. -/
def Document.setBodyInnerHTML (b : Browser) (doc : Document) (markup : String) : Document :=
  { doc with body := (b.parseFragment "body" markup).map (fun node => ⟨false, node⟩) }

/-- The document of a parsed page. -/
def Page.load (page : Page) : Document :=
  { head := page.head, bodyId := page.bodyId, body := page.body.map (fun node => ⟨false, node⟩) }

/-- `document.getElementById(id)` followed by a read of `innerHTML`: the children
of the element found, serialised; `none` when `getElementById` answers `null`.
Tree order: head, body, children of body. -/
def Document.innerHTMLById (b : Browser) (doc : Document) (id : String) : Option String :=
  match findInForest id doc.head with
  | some (tag, children) => some (b.serializeFragment tag children)
  | none =>
    if doc.bodyId = some id then some (doc.bodyInnerHTML b)
    else
      match findInForest id doc.bodyNodes with
      | some (tag, children) => some (b.serializeFragment tag children)
      | none => none

/-- `innerHTML = markup` on the first element with the given id among the
children of body and their descendants. -/
def setInnerInBody (id : String) (parse : String → List Node) :
    List BodyChild → Option (List BodyChild)
  | [] => none
  | child :: rest =>
    match child.node.setInnerById id parse with
    | some updated => some ({ child with node := updated } :: rest)
    | none =>
      match setInnerInBody id parse rest with
      | some updated => some (child :: updated)
      | none => none

/-- `document.getElementById(id)` followed by `innerHTML = markup` on the element
found: its children become the nodes the markup parses to as the content of
that element; `none` when `getElementById` answers `null`. -/
def Document.setInnerHTMLById (b : Browser) (doc : Document) (id : String) (markup : String) :
    Option Document :=
  match setInnerInForest id (fun tag => b.parseFragment tag markup) doc.head with
  | some head => some { doc with head := head }
  | none =>
    if doc.bodyId = some id then some (doc.setBodyInnerHTML b markup)
    else
      match setInnerInBody id (fun tag => b.parseFragment tag markup) doc.body with
      | some body => some { doc with body := body }
      | none => none

/-- `document.body.appendChild(loadingEl)`. -/
def Document.appendLoadingEl (doc : Document) (loadingEl : Node) : Document :=
  { doc with body := doc.body ++ [⟨true, loadingEl⟩] }

/-- `loadingEl.remove()`: the element leaves its parent, if it has one. -/
def Document.removeLoadingEl (doc : Document) : Document :=
  { doc with body := doc.body.filter (fun child => !child.isLoadingEl) }

/-- `PageComponents.pageContainer()` (lines 4-18): the template string. -/
def PageComponents.pageContainer : String :=
  "\n      <div class=\"article-container\">" ++
  "\n        <div class=\"content-wrapper\" id=\"page-content\">" ++
  "\n          <!-- 页面内容将被插入到这里 -->" ++
  "\n        </div>" ++
  "\n        " ++
  "\n        <!-- 页脚作者信息 -->" ++
  "\n        <div class=\"creator-info\">" ++
  "\n          <div class=\"creator-logo\">Y</div>" ++
  "\n          <div class=\"creator-text\">由 <span class=\"creator-name\">Yaron</span> 制作 | 代码沉思录</div>" ++
  "\n        </div>" ++
  "\n      </div>" ++
  "\n    "

/-- The markup `showError` assigns (lines 28-36), with the message of the error
put in as it is. -/
def errorDisplay (message : String) : String :=
  "\n    <div style=\"padding: 20px; color: red; font-family: sans-serif;\">" ++
  "\n      <h2>页面加载错误</h2>" ++
  "\n      <p>" ++ message ++ "</p>" ++
  "\n      <div>" ++
  "\n        <button onclick=\"window.location.reload()\">重新加载</button>" ++
  "\n      </div>" ++
  "\n    </div>" ++
  "\n  "

/-- `showError(error)` (lines 27-37). -/
def showError (b : Browser) (doc : Document) (message : String) : Document :=
  doc.setBodyInnerHTML b (errorDisplay message)

/-- The element built on lines 45-53: a `div` with the style properties
assigned on lines 46-52 and the inner HTML of line 53. -/
def loadingEl (b : Browser) : Node :=
  .element "div"
    [("style", b.styleText
      [("position", "fixed"), ("top", "0"), ("left", "0"), ("width", "100%"),
       ("padding", "10px"), ("background", "rgba(255,255,255,0.8)"),
       ("textAlign", "center")])]
    (b.parseFragment "div" "组件加载中...")

/-- A console call of components.js. -/
inductive Entry where
  /-- `debug(message)` with a fixed message. -/
  | debug (message : String)
  /-- `debug` of the content length (line 66). -/
  | debugLength (contentHTML : String)
  /-- `console.error` of line 88. -/
  | error (message : String)

/-- The `try` block of the handler (lines 43-86): the document and the console
at its end, or, when it throws, the document and the console at the `throw`
with the message of the error. -/
def initPage (b : Browser) (doc : Document) (console : List Entry) :
    Except (Document × List Entry × String) (Document × List Entry) :=
  let doc := doc.appendLoadingEl (loadingEl b)
  match doc.innerHTMLById b "page-data" with
  | none => .error (doc, console, "未找到页面内容数据元素 (id=\"page-data\")")
  | some contentHTML =>
    let console := console ++ [Entry.debug "找到页面内容数据"]
    let console := console ++ [Entry.debugLength contentHTML]
    let originalBody := doc.bodyInnerHTML b
    let doc := doc.setBodyInnerHTML b PageComponents.pageContainer
    let console := console ++ [Entry.debug "页面容器创建完成"]
    match doc.setInnerHTMLById b "page-content" contentHTML with
    | none =>
      let console := console ++ [Entry.debug "未找到内容容器，恢复原始内容"]
      let doc := doc.setBodyInnerHTML b originalBody
      .error (doc, console, "未找到内容容器元素 (id=\"page-content\")")
    | some doc =>
      let console := console ++ [Entry.debug "内容已插入到页面"]
      let doc := doc.removeLoadingEl
      .ok (doc, console)

/-- The `DOMContentLoaded` handler (lines 40-91): the document and the console
after it ran.  The `catch` block logs the error and calls `showError`. -/
def onDOMContentLoaded (b : Browser) (page : Page) : Document × List Entry :=
  let console := [Entry.debug "页面加载完成"]
  match initPage b page.load console with
  | .ok (doc, console) => (doc, console)
  | .error (doc, console, message) =>
    let console := console ++ [Entry.error message]
    (showError b doc message, console)

/-- The nodes of the template, with the given nodes as the children of the
element with id `page-content`. -/
def pageContainerWith (content : List Node) : List Node :=
  [.text "\n      ",
   .element "div" [("class", "article-container")]
     [.text "\n        ",
      .element "div" [("class", "content-wrapper"), ("id", "page-content")] content,
      .text "\n        \n        ",
      .comment " 页脚作者信息 ",
      .text "\n        ",
      .element "div" [("class", "creator-info")]
        [.text "\n          ",
         .element "div" [("class", "creator-logo")] [.text "Y"],
         .text "\n          ",
         .element "div" [("class", "creator-text")]
           [.text "由 ", .element "span" [("class", "creator-name")] [.text "Yaron"],
            .text " 制作 | 代码沉思录"],
         .text "\n        "],
      .text "\n      "],
   .text "\n    "]

/-- The nodes the HTML standard gives for the template string parsed as the
content of body. -/
def pageContainerNodes : List Node :=
  pageContainerWith
    [.text "\n          ", .comment " 页面内容将被插入到这里 ", .text "\n        "]

/-- The error messages on the console. -/
def errorEntries : List Entry → List String
  | [] => []
  | .error message :: rest => message :: errorEntries rest
  | _ :: rest => errorEntries rest

/-! ### A sample browser and sample pages -/

/-- The text of the attributes of a start tag, none of the values needing an
escape. -/
def attrsText : List (String × String) → String
  | [] => ""
  | (name, value) :: rest => " " ++ name ++ "=\"" ++ value ++ "\"" ++ attrsText rest

mutual
/-- The serialisation of a node none of whose texts or attribute values needs
an escape and none of whose elements is void. -/
def Node.outerHTML : Node → String
  | .text data => data
  | .comment data => "<!--" ++ data ++ "-->"
  | .element tag attrs children =>
    "<" ++ tag ++ attrsText attrs ++ ">" ++ forestHTML children ++ "</" ++ tag ++ ">"
/-- The serialisation of a list of such nodes. -/
def forestHTML : List Node → String
  | [] => ""
  | node :: rest => node.outerHTML ++ forestHTML rest
end

/-- The content block of `notePage`. -/
def noteContent : List Node :=
  [.element "h1" [] [.text "财富"], .element "p" [] [.text "把自己产品化"]]

/-- A content block `page-data` with the text `hi`. -/
def hiBlock : Node :=
  .element "div" [("id", "page-data")] [.text "hi"]

/-- The rows of `tablePage`. -/
def tableRows : List Node :=
  [.element "tbody" [] [.element "tr" [] [.element "td" [] [.text "x"]]]]

/-- The `style` text a browser gives the loading indicator. -/
def sampleStyleText : String :=
  "position: fixed; top: 0px; left: 0px; width: 100%; padding: 10px; " ++
  "background: rgba(255, 255, 255, 0.8); text-align: center;"

/-- The loading indicator as a parser builds it from its serialisation. -/
def loadingCopy : Node :=
  .element "div" [("style", sampleStyleText)] [.text "组件加载中..."]

/-- The node lists whose serialisation the sample browser parses back. -/
def sampleForests : List (List Node) :=
  [pageContainerNodes, noteContent, [.text "hi"], [.text "组件加载中..."], [hiBlock, loadingCopy]]

/-- A browser on the markup of the sample pages: it serialises without
escapes, parses the serialisation of the sample node lists back to them, and
parses table rows outside a table to their text, as the HTML standard has it. -/
def sampleBrowser : Browser where
  parseFragment := fun context markup =>
    if markup = forestHTML tableRows then
      if context = "table" then tableRows else [.text "x"]
    else
      match sampleForests.find? (fun nodes => forestHTML nodes == markup) with
      | some nodes => nodes
      | none => []
  serializeFragment := fun _ nodes => forestHTML nodes
  styleText := fun _ => sampleStyleText

/-- A note page: the content block `page-data` in the body. -/
def notePage : Page where
  head := [.element "title" [] [.text "纳瓦尔宝典"]]
  bodyId := none
  body := [.element "div" [("id", "page-data"), ("style", "display:none")] noteContent]

/-- A page whose content block is a table. -/
def tablePage : Page where
  head := []
  bodyId := none
  body := [.element "table" [("id", "page-data")] tableRows]

/-- A page whose body element has the id `page-content`. -/
def bodyIsContainerPage : Page where
  head := []
  bodyId := some "page-content"
  body := [hiBlock]

/-- A page with an element of id `page-content` in its head. -/
def headHasContainerPage : Page where
  head := [.element "style" [("id", "page-content")] []]
  bodyId := none
  body := [hiBlock]

/-- A page whose body element has the id `page-data`, as has one of its children. -/
def bodyIsDataPage : Page where
  head := []
  bodyId := some "page-data"
  body := [hiBlock]

/-! ### A concrete platform -/

/-- The document of the scenario of the specification: one pagination link. -/
def demoMarkup : String :=
  "<div class=\"pagination\"><a href=\"b.html\"> Next </a></div>"

/-- A platform whose working directory holds `a.html` (with `demoMarkup`) and
`b.html`, and nothing else. -/
def demoPlatform : Platform where
  readFileSync := fun file =>
    if file = "a.html" then .ok demoMarkup else .error "ENOENT: no such file or directory"
  paginationLinks := fun content =>
    if content = demoMarkup then .ok [⟨some "b.html", " Next "⟩] else .ok []
  fileExists := fun path => path == "a.html" || path == "b.html"

/-! # Theorems -/

/-! ## check_links.js: what a run prints -/

theorem checkLink_eq (env : Platform) (console : List Event) (link : Anchor) :
    checkLink env console link = console ++ linkReport env link := by
  unfold checkLink linkReport
  by_cases h : existsSync env link.href = true <;> simp [h]

theorem foldl_checkLink (env : Platform) (links : List Anchor) (console : List Event) :
    links.foldl (checkLink env) console = console ++ linksReport env links := by
  induction links generalizing console with
  | nil => simp [linksReport]
  | cons link rest ih => simp [List.foldl, ih, checkLink_eq, linksReport]

theorem checkFile_eq (env : Platform) (console : List Event) (file : String) :
    checkFile env console file = console ++ fileReport env file := by
  unfold checkFile fileReport
  cases h1 : env.readFileSync file with
  | error message => simp
  | ok content =>
    cases h2 : env.paginationLinks content with
    | error message => simp [h2]
    | ok links => simp [h2, foldl_checkLink]

theorem foldl_checkFile (env : Platform) (documents : List String) (console : List Event) :
    documents.foldl (checkFile env) console = console ++ filesReport env documents := by
  induction documents generalizing console with
  | nil => simp [filesReport]
  | cons file rest ih => simp [List.foldl, ih, checkFile_eq, filesReport]

theorem checkFiles_eq (env : Platform) (documents : List String) :
    checkFiles env documents = filesReport env documents := by
  simp [checkFiles, foldl_checkFile]

theorem filesReport_append (env : Platform) (xs ys : List String) :
    filesReport env (xs ++ ys) = filesReport env xs ++ filesReport env ys := by
  induction xs with
  | nil => simp [filesReport]
  | cons x xs ih => simp [filesReport, ih]

theorem fileReport_of_links (env : Platform) (file : String) (links : List Anchor)
    (h : selectedLinks env file = some links) :
    fileReport env file = Event.header file :: Event.count links.length :: linksReport env links := by
  unfold selectedLinks at h
  unfold fileReport
  cases h1 : env.readFileSync file with
  | error message => simp [h1] at h
  | ok content =>
    cases h2 : env.paginationLinks content with
    | error message => simp [h1, h2] at h
    | ok found =>
      simp [h1, h2] at h
      simp [h2, h]

theorem fileReport_of_error (env : Platform) (file message : String)
    (h : documentError env file = some message) :
    fileReport env file = [Event.header file, Event.failure message] := by
  unfold documentError at h
  unfold fileReport
  cases h1 : env.readFileSync file with
  | error m =>
    simp [h1] at h
    simp [h]
  | ok content =>
    cases h2 : env.paginationLinks content with
    | error m =>
      simp [h1, h2] at h
      simp [h2, h]
    | ok found => simp [h1, h2] at h

theorem selectedLinks_or_error (env : Platform) (file : String) :
    (∃ links, selectedLinks env file = some links) ∨ (∃ message, documentError env file = some message) := by
  unfold selectedLinks documentError
  cases h1 : env.readFileSync file with
  | error m => right; exact ⟨m, rfl⟩
  | ok content =>
    cases h2 : env.paginationLinks content with
    | error m => right; exact ⟨m, by simp [h2]⟩
    | ok found => left; exact ⟨found, by simp [h2]⟩

/-! ### Observations on reports -/

theorem headers_append (xs ys : List Event) : headers (xs ++ ys) = headers xs ++ headers ys := by
  induction xs with
  | nil => simp [headers]
  | cons e xs ih => cases e <;> simp [headers, ih]

theorem counts_append (xs ys : List Event) : counts (xs ++ ys) = counts xs ++ counts ys := by
  induction xs with
  | nil => simp [counts]
  | cons e xs ih => cases e <;> simp [counts, ih]

theorem failures_append (xs ys : List Event) : failures (xs ++ ys) = failures xs ++ failures ys := by
  induction xs with
  | nil => simp [failures]
  | cons e xs ih => cases e <;> simp [failures, ih]

theorem linkLines_append (xs ys : List Event) :
    linkLines (xs ++ ys) = linkLines xs ++ linkLines ys := by
  induction xs with
  | nil => simp [linkLines]
  | cons e xs ih => cases e <;> simp [linkLines, ih]

theorem verdicts_append (xs ys : List Event) : verdicts (xs ++ ys) = verdicts xs ++ verdicts ys := by
  induction xs with
  | nil => simp [verdicts]
  | cons e xs ih => cases e <;> simp [verdicts, ih]

theorem headers_linksReport (env : Platform) (links : List Anchor) :
    headers (linksReport env links) = [] := by
  induction links with
  | nil => simp [linksReport, headers]
  | cons a rest ih =>
    by_cases h : existsSync env a.href = true <;>
      simp [linksReport, linkReport, headers, h, ih]

theorem counts_linksReport (env : Platform) (links : List Anchor) :
    counts (linksReport env links) = [] := by
  induction links with
  | nil => simp [linksReport, counts]
  | cons a rest ih =>
    by_cases h : existsSync env a.href = true <;>
      simp [linksReport, linkReport, counts, h, ih]

theorem failures_linksReport (env : Platform) (links : List Anchor) :
    failures (linksReport env links) = [] := by
  induction links with
  | nil => simp [linksReport, failures]
  | cons a rest ih =>
    by_cases h : existsSync env a.href = true <;>
      simp [linksReport, linkReport, failures, h, ih]

theorem linkLines_linksReport (env : Platform) (links : List Anchor) :
    linkLines (linksReport env links) = links.map (fun a => (a.href, jsTrim a.textContent)) := by
  induction links with
  | nil => simp [linksReport, linkLines]
  | cons a rest ih =>
    by_cases h : existsSync env a.href = true <;>
      simp [linksReport, linkReport, linkLines, h, ih]

theorem verdicts_linksReport (env : Platform) (links : List Anchor) :
    verdicts (linksReport env links) = links.map (fun a => existsSync env a.href) := by
  induction links with
  | nil => simp [linksReport, verdicts]
  | cons a rest ih =>
    by_cases h : existsSync env a.href = true <;>
      simp [linksReport, linkReport, verdicts, h, ih]

theorem records_linksReport_append (env : Platform) (links : List Anchor) (rest : List Event) :
    records (linksReport env links ++ rest) = links.map (recordOf env) ++ records rest := by
  induction links with
  | nil => simp [linksReport]
  | cons a more ih =>
    by_cases h : existsSync env a.href = true <;>
      simp [linksReport, linkReport, records, recordOf, h, ih]

theorem headers_fileReport (env : Platform) (file : String) :
    headers (fileReport env file) = [file] := by
  rcases selectedLinks_or_error env file with ⟨links, h⟩ | ⟨message, h⟩
  · rw [fileReport_of_links env file links h]
    simp [headers, headers_linksReport]
  · rw [fileReport_of_error env file message h]
    simp [headers]

theorem headers_filesReport (env : Platform) (documents : List String) :
    headers (filesReport env documents) = documents := by
  induction documents with
  | nil => simp [filesReport, headers]
  | cons file rest ih => simp [filesReport, headers_append, headers_fileReport, ih]

theorem records_fileReport_append (env : Platform) (file : String) (rest : List Event) :
    records (fileReport env file ++ rest) =
      ((selectedLinks env file).getD []).map (recordOf env) ++ records rest := by
  rcases selectedLinks_or_error env file with ⟨links, h⟩ | ⟨message, h⟩
  · rw [fileReport_of_links env file links h]
    simp [h, records, records_linksReport_append]
  · have h0 : selectedLinks env file = none := by
      unfold selectedLinks
      unfold documentError at h
      cases h1 : env.readFileSync file with
      | error m => rfl
      | ok content =>
        cases h2 : env.paginationLinks content with
        | error m => simp [h2]
        | ok found => simp [h1, h2] at h
    rw [fileReport_of_error env file message h]
    simp [h0, records]

theorem mem_records_filesReport (env : Platform) (documents : List String) (r : LinkRecord)
    (h : r ∈ records (filesReport env documents)) :
    ∃ file links link, file ∈ documents ∧ selectedLinks env file = some links ∧
      link ∈ links ∧ r = recordOf env link := by
  induction documents with
  | nil => simp [filesReport, records] at h
  | cons file rest ih =>
    rw [filesReport, records_fileReport_append] at h
    rcases List.mem_append.mp h with h | h
    · rcases List.mem_map.mp h with ⟨link, hl, hr⟩
      cases hs : selectedLinks env file with
      | none => simp [hs] at hl
      | some links =>
        simp [hs] at hl
        exact ⟨file, links, link, by simp, hs, hl, hr.symm⟩
    · rcases ih h with ⟨f, links, link, hf, hs, hl, hr⟩
      exact ⟨f, links, link, by simp [hf], hs, hl, hr⟩

theorem selectedLinks_of_ok (env : Platform) (file content : String) (links : List Anchor)
    (hread : env.readFileSync file = .ok content)
    (hparse : env.paginationLinks content = .ok links) :
    selectedLinks env file = some links := by
  simp [selectedLinks, hread, hparse]

theorem ok_of_selectedLinks (env : Platform) (file : String) (links : List Anchor)
    (h : selectedLinks env file = some links) :
    ∃ content, env.readFileSync file = .ok content ∧ env.paginationLinks content = .ok links := by
  unfold selectedLinks at h
  cases h1 : env.readFileSync file with
  | error m => simp [h1] at h
  | ok content =>
    cases h2 : env.paginationLinks content with
    | error m => simp [h1, h2] at h
    | ok found =>
      simp [h1, h2] at h
      exact ⟨content, rfl, by rw [h2, h]⟩

/-! ### The claims on the link validator -/

/-- C1. For a document that is read and parsed successfully the validator
prints the count of the selected anchors and, for each selected anchor in
document order, one link line carrying its target and its trimmed label,
each followed by one verdict; with no selected anchor it prints the header and
the count 0 only. -/
theorem checkFile_reports_selected_anchors (env : Platform) (console : List Event)
    (file content : String) (links : List Anchor)
    (hread : env.readFileSync file = .ok content)
    (hparse : env.paginationLinks content = .ok links) :
    checkFile env console file = console ++ checkFile env [] file ∧
    counts (checkFile env [] file) = [links.length] ∧
    (linkLines (checkFile env [] file)).length = links.length ∧
    (records (checkFile env [] file)).length = links.length ∧
    linkLines (checkFile env [] file) = links.map (fun a => (a.href, jsTrim a.textContent)) ∧
    (records (checkFile env [] file)).map (fun r => (r.target, r.label)) =
      links.map (fun a => (a.href, jsTrim a.textContent)) ∧
    (∀ (i : Nat) (hi : i < links.length),
      (linkLines (checkFile env [] file))[i]? =
        some ((links.get ⟨i, hi⟩).href, jsTrim (links.get ⟨i, hi⟩).textContent)) ∧
    (links = [] → checkFile env [] file = [Event.header file, Event.count 0]) := by
  have hs := selectedLinks_of_ok env file content links hread hparse
  have hrep := fileReport_of_links env file links hs
  have hrec : records (checkFile env [] file) = links.map (recordOf env) := by
    have := records_fileReport_append env file []
    simpa [checkFile_eq, hs, records] using this
  have hlines : linkLines (checkFile env [] file) =
      links.map (fun a => (a.href, jsTrim a.textContent)) := by
    simp [checkFile_eq, hrep, linkLines, linkLines_linksReport]
  refine ⟨?_, ?_, ?_, ?_, hlines, ?_, ?_, ?_⟩
  · simp [checkFile_eq]
  · simp [checkFile_eq, hrep, counts, counts_linksReport]
  · simp [hlines]
  · simp [hrec]
  · simp [hrec, recordOf, Function.comp_def]
  · intro i hi
    simp [hlines, List.getElem?_map, List.getElem?_eq_getElem hi]
  · intro hnil
    subst hnil
    simp [checkFile_eq, hrep, linksReport]

/-- C2. Every link record of a run comes from a selected anchor of a configured
document, carries the href of that anchor unchanged, and its verdict is
"exists" exactly when the existence test on that href value succeeds; for an
href string the test is the one of the file system on that very string. -/
theorem verdict_iff_target_exists (env : Platform) (documents : List String) (r : LinkRecord)
    (hr : r ∈ records (checkFiles env documents)) :
    (r.present = true ↔ existsSync env r.target = true) ∧
    (r.present = false ↔ existsSync env r.target = false) ∧
    (∀ path, r.target = some path → (r.present = true ↔ env.fileExists path = true)) ∧
    (r.target = none → r.present = false) ∧
    ∃ file content links link, file ∈ documents ∧ env.readFileSync file = .ok content ∧
      env.paginationLinks content = .ok links ∧ link ∈ links ∧ r.target = link.href := by
  rw [checkFiles_eq] at hr
  obtain ⟨file, links, link, hf, hs, hl, rfl⟩ := mem_records_filesReport env documents r hr
  obtain ⟨content, h1, h2⟩ := ok_of_selectedLinks env file links hs
  refine ⟨by simp [recordOf], by simp [recordOf], ?_, ?_, file, content, links, link, hf, h1, h2, hl, rfl⟩
  · intro path hp
    simp only [recordOf] at hp
    simp [recordOf, hp, existsSync]
  · intro hp
    simp only [recordOf] at hp
    simp [recordOf, hp, existsSync]

/-- C3. Every configured path gets exactly one header, in configured order,
whatever fails; a document whose read or parse fails gets its header and one
error line, and the documents after it are reported as they would be alone. -/
theorem checkFiles_reports_failure_and_continues (env : Platform)
    (before after : List String) (file message : String)
    (hfail : env.readFileSync file = .error message ∨
      ∃ content, env.readFileSync file = .ok content ∧
        env.paginationLinks content = .error message) :
    (∀ documents, headers (checkFiles env documents) = documents) ∧
    headers (checkLinks env) = files ∧
    headers (checkFiles env (before ++ file :: after)) = before ++ file :: after ∧
    checkFile env [] file = [Event.header file, Event.failure message] ∧
    checkFiles env (before ++ file :: after) =
      checkFiles env before ++ [Event.header file, Event.failure message] ++
        checkFiles env after := by
  have herr : documentError env file = some message := by
    unfold documentError
    rcases hfail with h | ⟨content, h1, h2⟩
    · simp [h]
    · simp [h1, h2]
  have hrep := fileReport_of_error env file message herr
  refine ⟨?_, ?_, ?_, ?_, ?_⟩
  · intro documents
    simp [checkFiles_eq, headers_filesReport]
  · simp [checkLinks, checkFiles_eq, headers_filesReport]
  · simp [checkFiles_eq, headers_filesReport]
  · simp [checkFile_eq, hrep]
  · simp [checkFiles_eq, filesReport_append, filesReport, hrep]

/-- C5. Processing one selected anchor, whatever its href (absent, empty or
any string), appends the link line and exactly one verdict line; an absent
href gives the verdict "missing"; the anchors after it are processed all the
same, so a node list yields as many verdicts as it has anchors. -/
theorem checkLink_gives_one_verdict (env : Platform) (console : List Event) (link : Anchor) :
    (checkLink env console link =
        console ++ [Event.link link.href (jsTrim link.textContent), Event.targetExists] ∨
      checkLink env console link =
        console ++ [Event.link link.href (jsTrim link.textContent), Event.targetMissing]) ∧
    (verdicts (checkLink env [] link)).length = 1 ∧
    (link.href = none → checkLink env console link =
      console ++ [Event.link none (jsTrim link.textContent), Event.targetMissing]) ∧
    (∀ before after : List Anchor,
      (verdicts ((before ++ link :: after).foldl (checkLink env) [])).length =
        before.length + 1 + after.length ∧
      (records ((before ++ link :: after).foldl (checkLink env) [])).length =
        before.length + 1 + after.length) := by
  refine ⟨?_, ?_, ?_, ?_⟩
  · rw [checkLink_eq]
    by_cases h : existsSync env link.href = true <;> simp [linkReport, h]
  · rw [checkLink_eq]
    by_cases h : existsSync env link.href = true <;> simp [linkReport, h, verdicts]
  · intro hnone
    rw [checkLink_eq]
    simp [linkReport, hnone, existsSync]
  · intro before after
    rw [foldl_checkLink]
    constructor
    · simp [verdicts_linksReport]
      omega
    · have := records_linksReport_append env (before ++ link :: after) []
      simp only [List.append_nil] at this
      simp [this, records]
      omega

/-! ### `trim` -/

theorem trimChars_eq_rdropWhile (cs : List Char) :
    trimChars cs = List.rdropWhile isJsWhiteSpace (cs.dropWhile isJsWhiteSpace) := rfl

theorem trimChars_split (cs : List Char) :
    cs = cs.takeWhile isJsWhiteSpace ++ trimChars cs ++
      ((cs.dropWhile isJsWhiteSpace).reverse.takeWhile isJsWhiteSpace).reverse := by
  have h1 := (List.takeWhile_append_dropWhile isJsWhiteSpace cs).symm
  have h2 := congrArg List.reverse
    (List.takeWhile_append_dropWhile isJsWhiteSpace (cs.dropWhile isJsWhiteSpace).reverse)
  rw [List.reverse_append, List.reverse_reverse] at h2
  unfold trimChars
  rw [List.append_assoc, h2]
  exact h1

theorem trimChars_head_not_white (cs : List Char) (c : Char)
    (h : (trimChars cs).head? = some c) : isJsWhiteSpace c = false := by
  obtain ⟨rest, hrest⟩ : trimChars cs <+: cs.dropWhile isJsWhiteSpace := by
    rw [trimChars_eq_rdropWhile]
    exact List.rdropWhile_prefix isJsWhiteSpace _
  have hhead := List.head?_dropWhile_not isJsWhiteSpace cs
  cases ht : trimChars cs with
  | nil => simp [ht] at h
  | cons d t =>
    rw [ht] at h hrest
    simp at h
    subst h
    rw [← hrest] at hhead
    simpa using hhead

theorem trimChars_last_not_white (cs : List Char) (c : Char)
    (h : (trimChars cs).getLast? = some c) : isJsWhiteSpace c = false := by
  have hne : trimChars cs ≠ [] := by
    intro hnil
    simp [hnil] at h
  have hlast : (trimChars cs).getLast hne = c :=
    (List.getLast_eq_iff_getLast_eq_some hne).mpr h
  have hnot : ¬ isJsWhiteSpace ((trimChars cs).getLast hne) = true :=
    List.rdropWhile_last_not isJsWhiteSpace (cs.dropWhile isJsWhiteSpace) hne
  rw [hlast] at hnot
  simpa using hnot

theorem trimChars_of_all_white (cs : List Char) (h : ∀ c ∈ cs, isJsWhiteSpace c = true) :
    trimChars cs = [] := by
  have : cs.dropWhile isJsWhiteSpace = [] := List.dropWhile_eq_nil_iff.mpr h
  simp [trimChars, this]

/-- C4. The label the validator prints for a selected anchor is its text
content without the white space at its two ends: the text content is white
space, then the label, then white space; the label neither starts nor ends
with a white space character; it is empty when the text content is empty or
white space only. -/
theorem label_is_trimmed_text (env : Platform) (console : List Event) (link : Anchor) :
    linkLines (checkLink env console link) =
      linkLines console ++ [(link.href, jsTrim link.textContent)] ∧
    (∃ before after : List Char,
      link.textContent.data = before ++ (jsTrim link.textContent).data ++ after ∧
      (∀ c ∈ before, isJsWhiteSpace c = true) ∧ (∀ c ∈ after, isJsWhiteSpace c = true)) ∧
    (∀ c, (jsTrim link.textContent).data.head? = some c → isJsWhiteSpace c = false) ∧
    (∀ c, (jsTrim link.textContent).data.getLast? = some c → isJsWhiteSpace c = false) ∧
    ((∀ c ∈ link.textContent.data, isJsWhiteSpace c = true) → jsTrim link.textContent = "") ∧
    (link.textContent = "" → jsTrim link.textContent = "") := by
  refine ⟨?_, ?_, ?_, ?_, ?_, ?_⟩
  · rw [checkLink_eq, linkLines_append]
    by_cases h : existsSync env link.href = true <;> simp [linkReport, linkLines, h]
  · refine ⟨_, _, trimChars_split link.textContent.data, ?_, ?_⟩
    · intro c hc
      exact List.mem_takeWhile_imp hc
    · intro c hc
      exact List.mem_takeWhile_imp (List.mem_reverse.mp hc)
  · intro c hc
    exact trimChars_head_not_white _ c hc
  · intro c hc
    exact trimChars_last_not_white _ c hc
  · intro h
    simp [jsTrim, trimChars_of_all_white _ h]
  · intro h
    rw [h]
    rfl

/-- The scenario of the specification: `a.html` links to `b.html` with the
label ` Next `. -/
theorem checkFile_reports_selected_anchors_witness :
    demoPlatform.readFileSync "a.html" = .ok demoMarkup ∧
    demoPlatform.paginationLinks demoMarkup = .ok [⟨some "b.html", " Next "⟩] ∧
    counts (checkFile demoPlatform [] "a.html") = [1] ∧
    linkLines (checkFile demoPlatform [] "a.html") = [(some "b.html", "Next")] :=
  ⟨rfl, rfl,
   (checkFile_reports_selected_anchors demoPlatform [] "a.html" demoMarkup
      [⟨some "b.html", " Next "⟩] rfl rfl).2.1,
   (checkFile_reports_selected_anchors demoPlatform [] "a.html" demoMarkup
      [⟨some "b.html", " Next "⟩] rfl rfl).2.2.2.2.1⟩

/-- The record of the link to `b.html`, which exists, in a run over a missing
document and `a.html`. -/
theorem verdict_iff_target_exists_witness :
    (⟨some "b.html", "Next", true⟩ : LinkRecord) ∈
      records (checkFiles demoPlatform ["missing.html", "a.html"]) ∧
    existsSync demoPlatform (some "b.html") = true :=
  ⟨by decide,
   (verdict_iff_target_exists demoPlatform ["missing.html", "a.html"]
      ⟨some "b.html", "Next", true⟩ (by decide)).1.mp rfl⟩

/-- A run over `a.html`, a missing document and `a.html` again. -/
theorem checkFiles_reports_failure_and_continues_witness :
    demoPlatform.readFileSync "missing.html" = .error "ENOENT: no such file or directory" ∧
    checkFiles demoPlatform (["a.html"] ++ "missing.html" :: ["a.html"]) =
      checkFiles demoPlatform ["a.html"] ++
        [Event.header "missing.html", Event.failure "ENOENT: no such file or directory"] ++
        checkFiles demoPlatform ["a.html"] :=
  ⟨rfl,
   (checkFiles_reports_failure_and_continues demoPlatform ["a.html"] ["a.html"] "missing.html"
      "ENOENT: no such file or directory" (Or.inl rfl)).2.2.2.2⟩

/-! ## nav-control.js -/

/-! ### `includes` -/

theorem startsWithChars_iff (hay needle : List Char) :
    startsWithChars hay needle = true ↔ ∃ rest, hay = needle ++ rest := by
  induction hay generalizing needle with
  | nil =>
    cases needle with
    | nil => simp [startsWithChars]
    | cons n needle => simp [startsWithChars]
  | cons h hay ih =>
    cases needle with
    | nil => simp [startsWithChars]
    | cons n needle =>
      simp only [startsWithChars, Bool.and_eq_true, beq_iff_eq, ih, List.cons_append,
        List.cons.injEq]
      constructor
      · rintro ⟨rfl, rest, rfl⟩
        exact ⟨rest, rfl, rfl⟩
      · rintro ⟨rest, rfl, rfl⟩
        exact ⟨rfl, rest, rfl⟩

theorem includesChars_iff (hay needle : List Char) :
    includesChars hay needle = true ↔ ∃ front rest, hay = front ++ needle ++ rest := by
  induction hay with
  | nil =>
    simp only [includesChars, startsWithChars_iff]
    constructor
    · rintro ⟨rest, h⟩
      exact ⟨[], rest, by simpa using h⟩
    · rintro ⟨front, rest, h⟩
      have h2 := congrArg List.length h
      simp at h2
      have hn : needle = [] := List.length_eq_zero.mp (by omega)
      exact ⟨[], by simp [hn]⟩
  | cons h hay ih =>
    simp only [includesChars, Bool.or_eq_true, startsWithChars_iff, ih]
    constructor
    · rintro (⟨rest, hr⟩ | ⟨front, rest, hr⟩)
      · exact ⟨[], rest, by simpa using hr⟩
      · exact ⟨h :: front, rest, by simp [hr]⟩
    · rintro ⟨front, rest, hr⟩
      cases front with
      | nil => exact Or.inl ⟨rest, by simpa using hr⟩
      | cons f front =>
        simp only [List.cons_append, List.cons.injEq] at hr
        exact Or.inr ⟨front, rest, by simpa using hr.2⟩

theorem jsIncludes_iff (s needle : String) :
    jsIncludes s needle = true ↔ ∃ front rest : List Char, s.data = front ++ needle.data ++ rest :=
  includesChars_iff s.data needle.data

theorem jsIncludes_append_left (s t needle : String) (h : jsIncludes s needle = true) :
    jsIncludes (s ++ t) needle = true := by
  rw [jsIncludes_iff] at h ⊢
  obtain ⟨front, rest, h⟩ := h
  exact ⟨front, rest ++ t.data, by simp [String.data_append, h]⟩

theorem jsIncludes_append_right (s t needle : String) (h : jsIncludes t needle = true) :
    jsIncludes (s ++ t) needle = true := by
  rw [jsIncludes_iff] at h ⊢
  obtain ⟨front, rest, h⟩ := h
  exact ⟨s.data ++ front, rest, by simp [String.data_append, h]⟩

theorem jsIncludes_append_self (s t u : String) : jsIncludes (s ++ t ++ u) t = true := by
  rw [jsIncludes_iff]
  exact ⟨s.data, u.data, by simp [String.data_append]⟩

theorem append_ne_self (s t u : String) (ht : t.data ≠ []) : s ++ t ++ u ≠ s := by
  intro h
  have h2 := congrArg String.data h
  simp only [String.data_append, List.append_assoc] at h2
  have h3 := List.append_right_eq_self.mp h2
  simp at h3
  exact ht h3.1

/-! ### The callback and the loop -/

theorem updateLink_of_href (value : String) (link : Anchor) (href : String)
    (hhref : link.href = some href) :
    updateLink value link = .ok { link with href := some (rewriteHref value href) } := by
  cases link with
  | mk h t =>
    simp only at hhref
    subst hhref
    unfold updateLink rewriteHref
    by_cases h1 : jsIncludes href "?" = true
    · by_cases h2 : jsIncludes href "showNav=" = true
      · simp [h1, h2]
      · simp [h1, h2]
    · simp [h1]

theorem updateLink_eq_rewriteLink (value : String) (link : Anchor) (h : link.href ≠ none) :
    updateLink value link = .ok (rewriteLink value link) := by
  cases hh : link.href with
  | none => exact absurd hh h
  | some href =>
    rw [updateLink_of_href value link href hh]
    simp [rewriteLink, hh]

theorem forEachLink_append (value : String) (before rest : List Anchor)
    (hbefore : ∀ l ∈ before, l.href ≠ none) :
    forEachLink value (before ++ rest) =
      (before.map (rewriteLink value) ++ (forEachLink value rest).1, (forEachLink value rest).2) := by
  induction before with
  | nil => simp
  | cons l before ih =>
    have hl : l.href ≠ none := hbefore l (by simp)
    have ih2 := ih (fun x hx => hbefore x (by simp [hx]))
    simp [forEachLink, updateLink_eq_rewriteLink value l hl, ih2]

theorem forEachLink_of_all (value : String) (links : List Anchor)
    (hall : ∀ l ∈ links, l.href ≠ none) :
    forEachLink value links = (links.map (rewriteLink value), none) := by
  have := forEachLink_append value links [] hall
  simpa [forEachLink] using this

theorem updatePageLinks_at (w : Location) (before after : List Anchor) (link : Anchor)
    (href : String) (hbefore : ∀ l ∈ before, l.href ≠ none) (hhref : link.href = some href) :
    (updatePageLinks w (before ++ link :: after)).1[before.length]? =
      some { link with href := some (rewriteHref (showNavValue w) href) } := by
  unfold updatePageLinks
  rw [forEachLink_append _ before _ hbefore]
  simp only [forEachLink, updateLink_of_href _ link href hhref]
  rw [List.getElem?_append_right (by simp)]
  simp

theorem rewriteHref_rewriteHref (value href : String) :
    rewriteHref value (rewriteHref value href) = rewriteHref value href := by
  by_cases h1 : jsIncludes href "?" = true
  · by_cases h2 : jsIncludes href "showNav=" = true
    · simp [rewriteHref, h1, h2]
    · have e : rewriteHref value href = href ++ "&showNav=" ++ value := by
        simp [rewriteHref, h1, h2]
      have a1 : jsIncludes (href ++ "&showNav=" ++ value) "?" = true :=
        jsIncludes_append_left _ _ _ (jsIncludes_append_left _ _ _ h1)
      have a2 : jsIncludes (href ++ "&showNav=" ++ value) "showNav=" = true :=
        jsIncludes_append_left _ _ _ (jsIncludes_append_right _ _ _ rfl)
      rw [e]
      simp [rewriteHref, a1, a2]
  · have e : rewriteHref value href = href ++ "?showNav=" ++ value := by
      simp [rewriteHref, h1]
    have a1 : jsIncludes (href ++ "?showNav=" ++ value) "?" = true :=
      jsIncludes_append_left _ _ _ (jsIncludes_append_right _ _ _ rfl)
    have a2 : jsIncludes (href ++ "?showNav=" ++ value) "showNav=" = true :=
      jsIncludes_append_left _ _ _ (jsIncludes_append_right _ _ _ rfl)
    rw [e]
    simp [rewriteHref, a1, a2]

theorem rewriteHref_extends (value href : String) :
    ∃ suffix : String, rewriteHref value href = href ++ suffix := by
  by_cases h1 : jsIncludes href "?" = true
  · by_cases h2 : jsIncludes href "showNav=" = true
    · exact ⟨"", by simp [rewriteHref, h1, h2]⟩
    · exact ⟨"&showNav=" ++ value, by simp [rewriteHref, h1, h2, String.append_assoc]⟩
  · exact ⟨"?showNav=" ++ value, by simp [rewriteHref, h1, String.append_assoc]⟩

theorem rewriteHref_eq_self_iff (value href : String) :
    rewriteHref value href = href ↔
      (jsIncludes href "?" = true ∧ jsIncludes href "showNav=" = true) := by
  by_cases h1 : jsIncludes href "?" = true
  · by_cases h2 : jsIncludes href "showNav=" = true
    · simp [rewriteHref, h1, h2]
    · simp only [rewriteHref, h1, h2, if_true, if_false, Bool.false_eq_true, and_false, iff_false]
      exact append_ne_self href "&showNav=" value (by decide)
  · simp only [rewriteHref, h1, if_false, Bool.false_eq_true, false_and, iff_false]
    exact append_ne_self href "?showNav=" value (by decide)

theorem ok_update_eq_self_iff (link : Anchor) (href new : String) (hhref : link.href = some href) :
    (Except.ok { link with href := some new } : Except String Anchor) = .ok link ↔ new = href := by
  cases link with
  | mk h t =>
    simp only at hhref
    subst hhref
    simp

theorem rewriteLink_rewriteLink (value : String) (link : Anchor) :
    rewriteLink value (rewriteLink value link) = rewriteLink value link := by
  cases link with
  | mk h t =>
    cases h with
    | none => rfl
    | some href => simp [rewriteLink, rewriteHref_rewriteHref]

/-! ### The claims on `updatePageLinks` -/

/-- C6, the code at a failing input.  On a pagination whose first anchor has no
href attribute the callback throws at that anchor: the error leaves
`updatePageLinks` and the anchor after it keeps the href `page2.html`, which
carries no showNav parameter.  On a target with a fragment the parameter is
appended to the fragment, so the target carries no showNav query parameter
either. -/
theorem updatePageLinks_stops_at_missing_href (w : Location) :
    updatePageLinks w [⟨none, "1"⟩, ⟨some "page2.html", "2"⟩] =
      ([⟨none, "1"⟩, ⟨some "page2.html", "2"⟩],
        some "TypeError: Cannot read properties of null") ∧
    hasQueryParam "page2.html" "showNav" = false ∧
    jsIncludes "page2.html" "showNav" = false ∧
    updatePageLinks plainLocation [⟨some "page2.html#top", "2"⟩] =
      ([⟨some "page2.html#top?showNav=true", "2"⟩], none) ∧
    hasQueryParam "page2.html#top?showNav=true" "showNav" = false :=
  ⟨rfl, by decide, by decide, rfl, by decide⟩

/-- C8. The appended value is `false` exactly when `getQueryParam('showNav')`
is the string `false`, and `true` otherwise (absent, empty, `False`, `0`, ...).
A link whose href has no `?` gets href + `?showNav=` + value, and a link whose
href has a `?` but not `showNav=` gets href + `&showNav=` + value, both as the
result of the callback and in the node list after `updatePageLinks` (the
links before it having an href). -/
theorem showNav_value_and_appended_parameter (w : Location) (before after : List Anchor)
    (link : Anchor) (href : String)
    (hbefore : ∀ l ∈ before, l.href ≠ none) (hhref : link.href = some href) :
    (showNavValue w = "false" ↔ getQueryParam w "showNav" = some "false") ∧
    (getQueryParam w "showNav" ≠ some "false" → showNavValue w = "true") ∧
    (getQueryParam w "showNav" = none ∨ getQueryParam w "showNav" = some "" ∨
      getQueryParam w "showNav" = some "False" ∨ getQueryParam w "showNav" = some "0" →
        showNavValue w = "true") ∧
    (jsIncludes href "?" = false →
      updateLink (showNavValue w) link =
        .ok { link with href := some (href ++ "?showNav=" ++ showNavValue w) } ∧
      (updatePageLinks w (before ++ link :: after)).1[before.length]? =
        some { link with href := some (href ++ "?showNav=" ++ showNavValue w) }) ∧
    (jsIncludes href "?" = true → jsIncludes href "showNav=" = false →
      updateLink (showNavValue w) link =
        .ok { link with href := some (href ++ "&showNav=" ++ showNavValue w) } ∧
      (updatePageLinks w (before ++ link :: after)).1[before.length]? =
        some { link with href := some (href ++ "&showNav=" ++ showNavValue w) }) := by
  have hcall := updateLink_of_href (showNavValue w) link href hhref
  have hpage := updatePageLinks_at w before after link href hbefore hhref
  refine ⟨?_, ?_, ?_, ?_, ?_⟩
  · unfold showNavValue
    by_cases h : getQueryParam w "showNav" = some "false"
    · simp [h]
    · simp [h]
  · intro h
    simp [showNavValue, h]
  · intro h
    have hne : getQueryParam w "showNav" ≠ some "false" := by
      rcases h with h | h | h | h <;> rw [h] <;> decide
    simp [showNavValue, hne]
  · intro h1
    have e : rewriteHref (showNavValue w) href = href ++ "?showNav=" ++ showNavValue w := by
      simp [rewriteHref, h1]
    rw [e] at hcall hpage
    exact ⟨hcall, hpage⟩
  · intro h1 h2
    have e : rewriteHref (showNavValue w) href = href ++ "&showNav=" ++ showNavValue w := by
      simp [rewriteHref, h1, h2]
    rw [e] at hcall hpage
    exact ⟨hcall, hpage⟩

/-- A page without query string whose only pagination link is `page2.html`. -/
theorem showNav_value_and_appended_parameter_witness :
    (∀ l ∈ ([] : List Anchor), l.href ≠ none) ∧
    (⟨some "page2.html", "2"⟩ : Anchor).href = some "page2.html" ∧
    (updatePageLinks plainLocation ([] ++ ⟨some "page2.html", "2"⟩ :: [])).1[0]? =
      some ⟨some "page2.html?showNav=true", "2"⟩ :=
  ⟨by simp, rfl,
   ((showNav_value_and_appended_parameter plainLocation [] [] ⟨some "page2.html", "2"⟩
      "page2.html" (by simp) rfl).2.2.2.1 (by decide)).2⟩

/-- C9, the code at two failing inputs.  The link `a.html?noshowNav=1` is left
as it was, although its query string has no parameter named showNav, so it
ends without one; the link `a.html?showNav` is rewritten, although its query
string has a parameter named showNav.  The test on line 35 looks for the text
`showNav=` in the href where the comments speak of the parameter. -/
theorem unchanged_iff_showNav_parameter_fails :
    updateLink "true" ⟨some "a.html?noshowNav=1", "2"⟩ = .ok ⟨some "a.html?noshowNav=1", "2"⟩ ∧
    updatePageLinks plainLocation [⟨some "a.html?noshowNav=1", "2"⟩] =
      ([⟨some "a.html?noshowNav=1", "2"⟩], none) ∧
    hasQueryParam "a.html?noshowNav=1" "showNav" = false ∧
    updateLink "true" ⟨some "a.html?showNav", "2"⟩ =
      .ok ⟨some "a.html?showNav&showNav=true", "2"⟩ ∧
    hasQueryParam "a.html?showNav" "showNav" = true ∧
    ¬ (∀ (value : String) (link : Anchor) (href : String), link.href = some href →
        (updateLink value link = .ok link ↔ hasQueryParam href "showNav" = true)) := by
  refine ⟨rfl, rfl, by decide, rfl, by decide, ?_⟩
  intro h
  have h1 := (h "true" ⟨some "a.html?noshowNav=1", "2"⟩ "a.html?noshowNav=1" rfl).mp rfl
  exact absurd h1 (by decide)

/-- The test the callback performs: a pagination link with an href is left
exactly as it was if and only if its href contains `?` and contains the text
`showNav=`, for the callback and for the node list after `updatePageLinks`
(the links before it having an href). -/
theorem link_unchanged_iff_includes_showNav (w : Location) (before after : List Anchor)
    (link : Anchor) (href : String)
    (hbefore : ∀ l ∈ before, l.href ≠ none) (hhref : link.href = some href) :
    (∀ value : String, updateLink value link = .ok link ↔
      (jsIncludes href "?" = true ∧ jsIncludes href "showNav=" = true)) ∧
    ((updatePageLinks w (before ++ link :: after)).1[before.length]? = some link ↔
      (jsIncludes href "?" = true ∧ jsIncludes href "showNav=" = true)) := by
  constructor
  · intro value
    rw [updateLink_of_href value link href hhref, ok_update_eq_self_iff link href _ hhref]
    exact rewriteHref_eq_self_iff value href
  · rw [updatePageLinks_at w before after link href hbefore hhref]
    have := ok_update_eq_self_iff link href (rewriteHref (showNavValue w) href) hhref
    simp only [Except.ok.injEq] at this
    simp only [Option.some.injEq]
    rw [this]
    exact rewriteHref_eq_self_iff _ href

/-- C10. On a link with an href, the callback run a second time leaves the
result of the first run unchanged, whatever the showNav value, and the result
of one run starts with the original href; on a node list whose links all have
an href, `updatePageLinks` run twice gives what one run gives. -/
theorem updateLink_idempotent_and_extends (value : String) (link : Anchor) (href : String)
    (hhref : link.href = some href) :
    (∃ updated : String,
      updateLink value link = .ok { link with href := some updated } ∧
      updateLink value { link with href := some updated } =
        .ok { link with href := some updated } ∧
      (∃ suffix : String, updated = href ++ suffix) ∧
      href.data <+: updated.data) ∧
    (∀ (w : Location) (links : List Anchor), (∀ l ∈ links, l.href ≠ none) →
      updatePageLinks w (updatePageLinks w links).1 = updatePageLinks w links) := by
  constructor
  · refine ⟨rewriteHref value href, updateLink_of_href value link href hhref, ?_,
      rewriteHref_extends value href, ?_⟩
    · have := updateLink_of_href value { link with href := some (rewriteHref value href) }
        (rewriteHref value href) rfl
      simpa [rewriteHref_rewriteHref] using this
    · obtain ⟨suffix, hs⟩ := rewriteHref_extends value href
      exact ⟨suffix.data, by rw [hs, String.data_append]⟩
  · intro w links hall
    unfold updatePageLinks
    rw [forEachLink_of_all _ links hall]
    have hall2 : ∀ l ∈ links.map (rewriteLink (showNavValue w)), l.href ≠ none := by
      intro l hl
      obtain ⟨l0, hl0, rfl⟩ := List.mem_map.mp hl
      have := hall l0 hl0
      cases h0 : l0.href with
      | none => exact absurd h0 this
      | some x => simp [rewriteLink, h0]
    rw [forEachLink_of_all _ _ hall2]
    simp [rewriteLink_rewriteLink]

/-- The link `page2.html?from=1` with the value `false`. -/
theorem updateLink_idempotent_and_extends_witness :
    (⟨some "page2.html?from=1", "2"⟩ : Anchor).href = some "page2.html?from=1" ∧
    ∃ updated : String,
      updateLink "false" ⟨some "page2.html?from=1", "2"⟩ = .ok ⟨some updated, "2"⟩ ∧
      updateLink "false" ⟨some updated, "2"⟩ = .ok ⟨some updated, "2"⟩ ∧
      (∃ suffix : String, updated = "page2.html?from=1" ++ suffix) ∧
      "page2.html?from=1".data <+: updated.data :=
  ⟨rfl, (updateLink_idempotent_and_extends "false" ⟨some "page2.html?from=1", "2"⟩
    "page2.html?from=1" rfl).1⟩

/-! ## components.js -/

mutual
theorem setInnerById_eq_none (id : String) (parse : String → List Node) :
    (node : Node) → node.findById id = none → node.setInnerById id parse = none
  | .text _, _ => rfl
  | .comment _, _ => rfl
  | .element tag attrs children, h => by
    by_cases hid : attrs.lookup "id" = some id
    · simp [Node.findById, hid] at h
    · simp only [Node.findById, hid, if_false] at h
      simp [Node.setInnerById, hid, setInnerInForest_eq_none id parse children h]
theorem setInnerInForest_eq_none (id : String) (parse : String → List Node) :
    (nodes : List Node) → findInForest id nodes = none → setInnerInForest id parse nodes = none
  | [], _ => rfl
  | node :: rest, h => by
    cases hn : node.findById id with
    | some found => simp [findInForest, hn] at h
    | none =>
      simp only [findInForest, hn] at h
      simp [setInnerInForest, setInnerById_eq_none id parse node hn,
        setInnerInForest_eq_none id parse rest h]
end

theorem findInForest_append_of_isSome (id : String) (xs ys : List Node)
    (h : (findInForest id xs).isSome = true) :
    findInForest id (xs ++ ys) = findInForest id xs := by
  induction xs with
  | nil => simp [findInForest] at h
  | cons x xs ih =>
    cases hx : x.findById id with
    | some found => simp [findInForest, hx]
    | none =>
      simp only [findInForest, hx] at h
      simp [findInForest, hx, ih h]

theorem bodyNodes_appendLoadingEl (page : Page) (node : Node) :
    (page.load.appendLoadingEl node).bodyNodes = page.body ++ [node] := by
  simp [Document.bodyNodes, Document.appendLoadingEl, Page.load, Function.comp_def]

theorem bodyNodes_load (page : Page) : page.load.bodyNodes = page.body := by
  simp [Document.bodyNodes, Page.load, Function.comp_def]

theorem innerHTMLById_appendLoadingEl (b : Browser) (page : Page) (node : Node) (id : String)
    (hdata : (findInForest id page.body).isSome = true) (hbody : page.bodyId ≠ some id) :
    (page.load.appendLoadingEl node).innerHTMLById b id = page.load.innerHTMLById b id := by
  unfold Document.innerHTMLById
  rw [bodyNodes_appendLoadingEl, bodyNodes_load]
  have h1 : (page.load.appendLoadingEl node).head = page.load.head := rfl
  have h2 : (page.load.appendLoadingEl node).bodyId = page.bodyId := rfl
  have h3 : page.load.bodyId = page.bodyId := rfl
  rw [h1, h2, h3]
  simp only [hbody, if_false]
  rw [findInForest_append_of_isSome id page.body [node] hdata]

theorem innerHTMLById_of_body (b : Browser) (page : Page) (id : String)
    (hdata : (findInForest id page.body).isSome = true) (hbody : page.bodyId ≠ some id) :
    ∃ contentHTML, page.load.innerHTMLById b id = some contentHTML := by
  unfold Document.innerHTMLById
  rw [bodyNodes_load]
  have h3 : page.load.bodyId = page.bodyId := rfl
  rw [h3]
  simp only [hbody, if_false]
  cases hh : findInForest id page.load.head with
  | some found => exact ⟨_, rfl⟩
  | none =>
    obtain ⟨found, hc⟩ := Option.isSome_iff_exists.mp hdata
    exact ⟨b.serializeFragment found.1 found.2, by simp [hc]⟩

theorem setInnerHTMLById_pageContainer (b : Browser) (head : List Node) (bodyId : Option String)
    (body : List BodyChild) (markup : String)
    (htemplate : b.parseFragment "body" PageComponents.pageContainer = pageContainerNodes)
    (hbody : bodyId ≠ some "page-content")
    (hhead : findInForest "page-content" head = none) :
    (Document.setBodyInnerHTML b ⟨head, bodyId, body⟩
        PageComponents.pageContainer).setInnerHTMLById b "page-content" markup =
      some ⟨head, bodyId,
        (pageContainerWith (b.parseFragment "div" markup)).map (fun node => ⟨false, node⟩)⟩ := by
  unfold Document.setInnerHTMLById Document.setBodyInnerHTML
  simp only [setInnerInForest_eq_none "page-content" _ head hhead, hbody, if_false, htemplate]
  rfl

theorem initPage_ok (b : Browser) (page : Page) (console : List Entry) (contentHTML : String)
    (htemplate : b.parseFragment "body" PageComponents.pageContainer = pageContainerNodes)
    (hdata : (findInForest "page-data" page.body).isSome = true)
    (hcontent : page.load.innerHTMLById b "page-data" = some contentHTML)
    (hbodyData : page.bodyId ≠ some "page-data")
    (hbodyContent : page.bodyId ≠ some "page-content")
    (hhead : findInForest "page-content" page.head = none) :
    initPage b page.load console =
      .ok (⟨page.head, page.bodyId,
          (pageContainerWith (b.parseFragment "div" contentHTML)).map
            (fun node => ⟨false, node⟩)⟩,
        console ++ [Entry.debug "找到页面内容数据", Entry.debugLength contentHTML,
          Entry.debug "页面容器创建完成", Entry.debug "内容已插入到页面"]) := by
  unfold initPage
  simp only [innerHTMLById_appendLoadingEl b page (loadingEl b) "page-data" hdata hbodyData,
    hcontent]
  have hset := setInnerHTMLById_pageContainer b page.head page.bodyId
    (page.load.appendLoadingEl (loadingEl b)).body contentHTML htemplate hbodyContent hhead
  have hdoc : page.load.appendLoadingEl (loadingEl b) =
      ⟨page.head, page.bodyId, (page.load.appendLoadingEl (loadingEl b)).body⟩ := rfl
  rw [hdoc, hset]
  simp [Document.removeLoadingEl, pageContainerWith]

/-! ### The claim on the componentizer -/

/-- C7, as stated, fails.  On a page whose content block is a table, the
inner HTML of `page-data` is its rows, which parsed inside the `div` of the
template leave the text `x` only.  On a page whose body element has the id
`page-content` the lookup after the template is assigned finds the body
itself, and the content replaces the template.  On a page with an element of
id `page-content` in the head the content goes to that element and the
template keeps its placeholder.  On a page whose body element has the id
`page-data` the content is read after the loading indicator is appended, and
`page-content` ends with another inner HTML than `page-data` had. -/
theorem body_is_template_with_content_fails :
    (findInForest "page-data" tablePage.body).isSome = true ∧
    tablePage.load.innerHTMLById sampleBrowser "page-data" =
      some "<tbody><tr><td>x</td></tr></tbody>" ∧
    (onDOMContentLoaded sampleBrowser tablePage).1.innerHTMLById sampleBrowser "page-content" =
      some "x" ∧
    (findInForest "page-data" bodyIsContainerPage.body).isSome = true ∧
    (onDOMContentLoaded sampleBrowser bodyIsContainerPage).1.bodyNodes = [.text "hi"] ∧
    (findInForest "page-data" headHasContainerPage.body).isSome = true ∧
    (onDOMContentLoaded sampleBrowser headHasContainerPage).1.bodyNodes = pageContainerNodes ∧
    (onDOMContentLoaded sampleBrowser headHasContainerPage).1.head =
      [.element "style" [("id", "page-content")] [.text "hi"]] ∧
    (findInForest "page-data" bodyIsDataPage.body).isSome = true ∧
    bodyIsDataPage.load.innerHTMLById sampleBrowser "page-data" =
      some "<div id=\"page-data\">hi</div>" ∧
    (onDOMContentLoaded sampleBrowser bodyIsDataPage).1.innerHTMLById sampleBrowser
      "page-content" ≠ some "<div id=\"page-data\">hi</div>" :=
  ⟨rfl, rfl, rfl, rfl, rfl, rfl, rfl, rfl, rfl, rfl, by decide⟩

/-- C7, amended.  For a page whose body contains an element with id
`page-data`, whose body element has neither the id `page-data` nor the id
`page-content`, and whose head has no element with id `page-content`, on a
browser that parses the template as the HTML standard has it: after the
handler ran, the body is the template, the children of `page-content` being
the nodes that the inner HTML the first element with id `page-data` had
before parses to inside a `div`; so the inner HTML of `page-content` is that
markup parsed and serialised again, and equals it whenever the markup
survives that round trip.  The head is as it was, the element held in
`loadingEl` is not in the page, and the `catch` block did not run: no error
is logged and `showError` is not called. -/
theorem body_is_template_with_content (b : Browser) (page : Page)
    (htemplate : b.parseFragment "body" PageComponents.pageContainer = pageContainerNodes)
    (hdata : (findInForest "page-data" page.body).isSome = true)
    (hbodyData : page.bodyId ≠ some "page-data")
    (hbodyContent : page.bodyId ≠ some "page-content")
    (hhead : findInForest "page-content" page.head = none) :
    ∃ contentHTML : String,
      page.load.innerHTMLById b "page-data" = some contentHTML ∧
      (onDOMContentLoaded b page).1.bodyNodes =
        pageContainerWith (b.parseFragment "div" contentHTML) ∧
      (onDOMContentLoaded b page).1.innerHTMLById b "page-content" =
        some (b.serializeFragment "div" (b.parseFragment "div" contentHTML)) ∧
      (b.serializeFragment "div" (b.parseFragment "div" contentHTML) = contentHTML →
        (onDOMContentLoaded b page).1.innerHTMLById b "page-content" = some contentHTML) ∧
      (onDOMContentLoaded b page).1.head = page.head ∧
      (onDOMContentLoaded b page).1.bodyId = page.bodyId ∧
      (∀ child ∈ (onDOMContentLoaded b page).1.body, child.isLoadingEl = false) ∧
      errorEntries (onDOMContentLoaded b page).2 = [] ∧
      (onDOMContentLoaded b page).2 =
        [Entry.debug "页面加载完成", Entry.debug "找到页面内容数据",
          Entry.debugLength contentHTML, Entry.debug "页面容器创建完成",
          Entry.debug "内容已插入到页面"] := by
  obtain ⟨contentHTML, hcontent⟩ := innerHTMLById_of_body b page "page-data" hdata hbodyData
  have hrun : onDOMContentLoaded b page =
      (⟨page.head, page.bodyId,
          (pageContainerWith (b.parseFragment "div" contentHTML)).map
            (fun node => ⟨false, node⟩)⟩,
        [Entry.debug "页面加载完成"] ++ [Entry.debug "找到页面内容数据",
          Entry.debugLength contentHTML, Entry.debug "页面容器创建完成",
          Entry.debug "内容已插入到页面"]) := by
    unfold onDOMContentLoaded
    simp only [initPage_ok b page _ contentHTML htemplate hdata hcontent hbodyData
      hbodyContent hhead]
  have hnodes : (onDOMContentLoaded b page).1.bodyNodes =
      pageContainerWith (b.parseFragment "div" contentHTML) := by
    rw [hrun]
    simp [Document.bodyNodes, Function.comp_def]
  have hinner : (onDOMContentLoaded b page).1.innerHTMLById b "page-content" =
      some (b.serializeFragment "div" (b.parseFragment "div" contentHTML)) := by
    unfold Document.innerHTMLById
    rw [hnodes]
    rw [hrun]
    simp only [hhead, hbodyContent, if_false]
    rfl
  refine ⟨contentHTML, hcontent, hnodes, hinner, ?_, ?_, ?_, ?_, ?_, ?_⟩
  · intro hround
    rw [hinner, hround]
  · rw [hrun]
  · rw [hrun]
  · rw [hrun]
    intro child hchild
    obtain ⟨node, _, rfl⟩ := List.mem_map.mp hchild
    rfl
  · rw [hrun]
    simp [errorEntries]
  · rw [hrun]
    rfl

/-- The handler on a note page with a `page-data` block in its body, on the
sample browser: the markup of the block survives the round trip. -/
theorem body_is_template_with_content_witness :
    sampleBrowser.parseFragment "body" PageComponents.pageContainer = pageContainerNodes ∧
    (findInForest "page-data" notePage.body).isSome = true ∧
    notePage.bodyId ≠ some "page-data" ∧
    notePage.bodyId ≠ some "page-content" ∧
    findInForest "page-content" notePage.head = none ∧
    notePage.load.innerHTMLById sampleBrowser "page-data" =
      some "<h1>财富</h1><p>把自己产品化</p>" ∧
    (onDOMContentLoaded sampleBrowser notePage).1.innerHTMLById sampleBrowser "page-content" =
      some "<h1>财富</h1><p>把自己产品化</p>" ∧
    ∃ contentHTML : String,
      notePage.load.innerHTMLById sampleBrowser "page-data" = some contentHTML ∧
      (onDOMContentLoaded sampleBrowser notePage).1.bodyNodes =
        pageContainerWith (sampleBrowser.parseFragment "div" contentHTML) ∧
      (onDOMContentLoaded sampleBrowser notePage).1.innerHTMLById sampleBrowser "page-content" =
        some (sampleBrowser.serializeFragment "div"
          (sampleBrowser.parseFragment "div" contentHTML)) ∧
      (sampleBrowser.serializeFragment "div" (sampleBrowser.parseFragment "div" contentHTML) =
          contentHTML →
        (onDOMContentLoaded sampleBrowser notePage).1.innerHTMLById sampleBrowser
          "page-content" = some contentHTML) ∧
      (onDOMContentLoaded sampleBrowser notePage).1.head = notePage.head ∧
      (onDOMContentLoaded sampleBrowser notePage).1.bodyId = notePage.bodyId ∧
      (∀ child ∈ (onDOMContentLoaded sampleBrowser notePage).1.body,
        child.isLoadingEl = false) ∧
      errorEntries (onDOMContentLoaded sampleBrowser notePage).2 = [] ∧
      (onDOMContentLoaded sampleBrowser notePage).2 =
        [Entry.debug "页面加载完成", Entry.debug "找到页面内容数据",
          Entry.debugLength contentHTML, Entry.debug "页面容器创建完成",
          Entry.debug "内容已插入到页面"] :=
  ⟨rfl, rfl, by simp [notePage], by simp [notePage], rfl, rfl, rfl,
   body_is_template_with_content sampleBrowser notePage rfl rfl (by simp [notePage])
     (by simp [notePage]) rfl⟩

end Knowhow
